import Mathlib

/-!
# Verification of dicomorganizer against its specification

Shallow embedding of `dicomorganizer/utils.py` (the parallel task runner)
and `dicomorganizer/dicom_manager.py` (the `DicomManager` class), together
with theorems settling the specification claims.

Modelling conventions:
* A work function that may raise is embedded as `f : α → Option β`
  (`none` = the call raised an exception).
* The nondeterministic completion order of `concurrent.futures.as_completed`
  is an explicit parameter `completionOrder : List Nat`; real executions
  correspond to lists that are permutations of `List.range N`.
* Exceptions that escape a Python function are `Except.error` values of the
  structured type `PyError`.
* External collaborators (pydicom, the filesystem walk) are oracle
  parameters, bundled in `DicomEnv` for the manager.
-/

namespace DicomOrganizer

/-- Exceptions that can escape the embedded functions. -/
inductive PyError where
  /-- `ValueError: max_workers must be greater than 0`, raised by
  `concurrent.futures.ProcessPoolExecutor.__init__` when `max_workers <= 0`. -/
  | valueErrorMaxWorkers
  /-- The `ValueError` raised in `DicomManager._get_dicom_info` when group-by
  columns are missing; carries the missing columns (joined in the message)
  and the available columns. -/
  | valueErrorGroupBy (missing : List String) (available : List String)
  /-- `ValueError("The provided filter_func must be a callable function.")`
  raised in `DicomManager.filter`. -/
  | valueErrorFilterFunc
  /-- The `KeyError` raised by `DataFrame.groupby` on a missing column. -/
  | keyErrorGroupBy (cols : List String)
  deriving Repr, DecidableEq

deriving instance DecidableEq for Except

/-- The Python idiom `num_workers or 1` on line 27 of `utils.py`:
`None` and `0` are falsy and give `1`; any other integer is itself. -/
def pyOrOne : Option Int → Int
  | none => 1
  | some 0 => 1
  | some n => n

/-- `min(len(arguments_list), num_workers or 1)` (utils.py line 27):
the `max_workers` value handed to `ProcessPoolExecutor`. -/
def effectiveWorkers (n : Nat) (w : Option Int) : Int :=
  min (n : Int) (pyOrOne w)

/-- Mutable state of the result-collection loop in `parallel_tasks`:
the preallocated `results_list`, the failure log entries emitted via
`logger.info`, and the progress-bar counter `pbar`. -/
structure LoopState (α β : Type) where
  results : List (Option β)
  failureLog : List (Nat × α)
  progress : Nat
  deriving Repr, DecidableEq

/-- Processing of one completed task with index `idx` (utils.py lines 34-41
in the pool branch, lines 43-49 in the sequential branch): on success the
return value is stored at slot `idx`; on an exception the slot is left
untouched and `(idx, arguments_list[idx])` is logged; the progress bar
advances either way. -/
def processTask (f : α → Option β) (argumentsList : List α)
    (st : LoopState α β) (idx : Nat) : LoopState α β :=
  match argumentsList[idx]? with
  | none => st
  | some a =>
    match f a with
    | some v =>
        { st with results := st.results.set idx (some v), progress := st.progress + 1 }
    | none =>
        { st with failureLog := st.failureLog ++ [(idx, a)], progress := st.progress + 1 }

/-- The value returned by `parallel_tasks`, together with the observable
side effects the spec talks about (failure log, progress updates, whether a
worker pool was constructed). -/
structure RunResult (α β : Type) where
  results : List (Option β)
  failureLog : List (Nat × α)
  progressUpdates : Nat
  poolCreated : Bool
  deriving Repr, DecidableEq

/-- The result-collection loop of `parallel_tasks`, starting from the
preallocated `results_list = [None] * len(arguments_list)` (utils.py
line 25) and processing the task indices in the given order. -/
def runLoop (f : α → Option β) (argumentsList : List α)
    (order : List Nat) : LoopState α β :=
  order.foldl (processTask f argumentsList)
    ⟨List.replicate argumentsList.length none, [], 0⟩

/-- `parallel_tasks(function, arguments_list, num_workers, ..., force_single_thread)`
from `utils.py` lines 9-51.

* `results_list = [None] * len(arguments_list)` is the preallocated output.
* `num_workers = min(len(arguments_list), num_workers or 1)`.
* In the pool branch, `ProcessPoolExecutor(max_workers=num_workers)` raises
  `ValueError` when `num_workers <= 0`; otherwise the futures complete in
  the nondeterministic order `completionOrder` and each completed future's
  result is stored at its own index.
* In the `force_single_thread` branch the tasks run in input order. -/
def parallel_tasks (f : α → Option β) (argumentsList : List α)
    (numWorkers : Option Int) (forceSingleThread : Bool)
    (completionOrder : List Nat) : Except PyError (RunResult α β) :=
  if forceSingleThread then
    let fin := runLoop f argumentsList (List.range argumentsList.length)
    .ok ⟨fin.results, fin.failureLog, fin.progress, false⟩
  else if effectiveWorkers argumentsList.length numWorkers ≤ 0 then
    .error .valueErrorMaxWorkers
  else
    let fin := runLoop f argumentsList completionOrder
    .ok ⟨fin.results, fin.failureLog, fin.progress, true⟩

/-! ## Embedding of `dicom_manager.py` (class `DicomManager`)

A pandas row of the catalog is modelled as an association list from column
name to cell value; `none` cells are pandas `NaN`. A Python `None` element
in the row list (the sequential path of `_get_dicom_info_parallel` keeps
them) is the outer `Option`. -/

/-- One metadata dictionary produced by `_get_single_dicom_info`. -/
def DicomRow : Type := List (String × Option String)

instance : DecidableEq DicomRow := by unfold DicomRow; infer_instance

/-- A row slot of the catalog: a dictionary or Python `None`. -/
def DfRow : Type := Option DicomRow

instance : DecidableEq DfRow := by unfold DfRow; infer_instance

/-- Outcome of `pydicom.dcmread(filepath, specific_tags=tags,
stop_before_pixels=True)` as observed by `_get_single_dicom_info`: the
invalid-format failure, any other exception, or a dataset abstracted as its
`dicom_data.get(tag, default)` accessor. -/
inductive ReadResult where
  | invalidDicom
  | exn (msg : String)
  | dataset (get : String → Option String)

/-- External collaborators of `DicomManager`: the DICOM reader, the
filesystem walk (`os.walk`: (root, files) pairs), and the completion order
of the worker pool. -/
structure DicomEnv where
  dcmread : String → ReadResult
  walk : String → List (String × List String)
  completionOrder : List Nat

/-- `DicomManager._get_single_dicom_info` (dicom_manager.py lines 230-251),
with `default_value=None`: an invalid DICOM file yields `None`, any other
exception yields `{'error': str(e)}`, and otherwise the requested tags are
read with the default fallback and `'filename'` is added. -/
def _get_single_dicom_info (env : DicomEnv) (filepath : String)
    (tags : List String) : DfRow :=
  match env.dcmread filepath with
  | .invalidDicom => none
  | .exn e => some [("error", some e)]
  | .dataset get =>
      some ((tags.map (fun tag => (tag, get tag))) ++ [("filename", some filepath)])

/-- Python `str.upper()` (ASCII), used by the `DICOMDIR` exclusion check. -/
def pyUpper (s : String) : String :=
  ⟨s.data.map Char.toUpper⟩

/-- `DicomManager._get_dicom_file_paths` (lines 214-228): all walked files
except those named `DICOMDIR` (case-insensitively), joined to their root. -/
def _get_dicom_file_paths (env : DicomEnv) (directory : String) : List String :=
  (env.walk directory).flatMap (fun rootFiles =>
    (rootFiles.2.filter (fun file => !(pyUpper file == "DICOMDIR"))).map
      (fun file => rootFiles.1 ++ "/" ++ file))

/-- `DicomManager._get_dicom_info_parallel` (lines 193-212). With
`num_workers=None` the files are read sequentially by a list comprehension
that keeps `None` entries; otherwise `parallel_tasks` is used and `None`
results are filtered out. -/
def _get_dicom_info_parallel (env : DicomEnv) (directory : String)
    (tags : List String) (num_workers : Option Int) :
    Except PyError (List DfRow) :=
  let dicom_paths := _get_dicom_file_paths env directory
  match num_workers with
  | none => .ok (dicom_paths.map (fun path => _get_single_dicom_info env path tags))
  | some w =>
    match parallel_tasks (fun path => some (_get_single_dicom_info env path tags))
        dicom_paths (some w) false env.completionOrder with
    | .error e => .error e
    | .ok r => .ok ((r.results.map (fun o => o.join)).filter (fun x => x.isSome))

/-- Python dict lookup on a row (last binding wins, as in dict update). -/
def dictGet (row : DicomRow) (key : String) : Option String :=
  (row.reverse.find? (fun kv => kv.fst == key)).bind (fun kv => kv.snd)

/-- The keys of a row, as `dict` keys (no duplicates). -/
def dictKeys (row : DicomRow) : List String :=
  (row.map Prod.fst).dedup

/-- The columns of `pd.DataFrame(list_of_dicts)`: the union of the keys of
the non-`None` rows. -/
def dfColumns (rows : List DfRow) : List String :=
  ((rows.filterMap id).flatMap dictKeys).dedup

/-- A pandas DataFrame: its column set and its rows. The column set is kept
separately because filtering rows never changes it. -/
structure PdDataFrame where
  columns : List String
  rows : List DfRow
  deriving DecidableEq

/-- `pd.DataFrame(dicom_info)` (line 177). -/
def pdDataFrame (rows : List DfRow) : PdDataFrame :=
  ⟨dfColumns rows, rows⟩

/-- Cell access on a possibly-`None` row: an absent key, a stored `None`
value, and an all-`NaN` row all read as `NaN`. -/
def dfCell (r : DfRow) (column : String) : Option String :=
  r.bind (fun row => dictGet row column)

/-- The group key of a row for `groupby(columns)`: `none` when any key
column of the row is `NaN` (pandas drops such rows from the groups). -/
def groupKey (columns : List String) (r : DfRow) : Option (List String) :=
  columns.mapM (fun column => dfCell r column)

/-- The rows of the frame paired with their group key, skipping rows whose
key has a `NaN` component (pandas `groupby` drops those). -/
def dfKeyed (columns : List String) (df : PdDataFrame) :
    List (List String × DfRow) :=
  df.rows.filterMap (fun r => (groupKey columns r).map (fun k => (k, r)))

/-- `DataFrame.groupby(columns)`: rows with a fully present key are
partitioned by equality of their key. -/
def dfGroupby (columns : List String) (df : PdDataFrame) :
    List (List String × List DfRow) :=
  ((dfKeyed columns df).map Prod.fst).dedup.map
    (fun k =>
      (k, ((dfKeyed columns df).filter (fun p => p.fst == k)).map Prod.snd))

/-- The value of `DicomManager._df_dicom`: a flat DataFrame or a
`DataFrameGroupBy` (which keeps the ungrouped frame as `.obj`). -/
inductive DfState where
  | flat (df : PdDataFrame)
  | grouped (obj : PdDataFrame) (groups : List (List String × List DfRow))
  deriving DecidableEq

/-- The `.obj` of a grouped frame, or the frame itself
(dicom_manager.py lines 109-112). -/
def DfState.obj : DfState → PdDataFrame
  | .flat df => df
  | .grouped o _ => o

/-- The `group_by` argument: a single column name or a list of names
(line 181: `group_by if isinstance(group_by, list) else list([group_by])`). -/
inductive GroupBySpec where
  | single (col : String)
  | multi (cols : List String)
  deriving DecidableEq

def GroupBySpec.toColumnList : GroupBySpec → List String
  | .single col => [col]
  | .multi cols => cols

/-- `DicomManager._get_dicom_info` (lines 162-191): build the DataFrame,
then — only if `group_by` is given — check that all group-by columns exist
(raising `ValueError` naming the missing ones) before calling `groupby`. -/
def _get_dicom_info (env : DicomEnv) (directory : String) (tags : List String)
    (group_by : Option GroupBySpec) (num_workers : Option Int) :
    Except PyError DfState :=
  match _get_dicom_info_parallel env directory tags num_workers with
  | .error e => .error e
  | .ok dicom_info =>
    let df_dicom := pdDataFrame dicom_info
    match group_by with
    | none => .ok (.flat df_dicom)
    | some gb =>
      let group_by_list := gb.toColumnList
      if group_by_list.all (fun col => df_dicom.columns.contains col) then
        .ok (.grouped df_dicom (dfGroupby group_by_list df_dicom))
      else
        .error (.valueErrorGroupBy
          (group_by_list.filter (fun col => !df_dicom.columns.contains col))
          df_dicom.columns)

/-- The mutable state of a `DicomManager` instance. -/
structure DicomManager where
  directory : String
  tags : List String
  num_workers : Option Int
  group_by : Option GroupBySpec
  df : Option DfState

/-- The `df_dicom` property (lines 75-88): lazily load `_df_dicom` via
`_get_dicom_info` and return it, caching it on the instance. -/
def df_dicom (env : DicomEnv) (m : DicomManager) :
    Except PyError (DicomManager × DfState) :=
  match m.df with
  | some d => .ok (m, d)
  | none =>
    match _get_dicom_info env m.directory m.tags m.group_by m.num_workers with
    | .error e => .error e
    | .ok d => .ok ({m with df := some d}, d)

/-- The DataFrame obtained by ungrouping the stored state and keeping the
rows on which `filter_func` is true (lines 109-115). -/
def filteredOf (d : DfState) (f : DfRow → Bool) : PdDataFrame :=
  ⟨d.obj.columns, d.obj.rows.filter f⟩

/-- `DicomManager.filter` (lines 91-118). A non-callable `filter_func` is
modelled as `none` and raises `ValueError` up front; otherwise the frame is
ungrouped, row-filtered, regrouped when `self.group_by` is set (a missing
group-by column at this point raises pandas' `KeyError`), and stored back
into `self._df_dicom` — the `inplace` argument is never consulted. -/
def DicomManager.filter (env : DicomEnv) (m : DicomManager)
    (filter_func : Option (DfRow → Bool)) (inplace : Bool) :
    Except PyError (DicomManager × DfState) :=
  match filter_func with
  | none => .error .valueErrorFilterFunc
  | some f =>
    match df_dicom env m with
    | .error e => .error e
    | .ok (m1, d) =>
      let df_filtered := filteredOf d f
      match m1.group_by with
      | none => .ok ({m1 with df := some (.flat df_filtered)}, .flat df_filtered)
      | some gb =>
        let cols := gb.toColumnList
        if cols.all (fun c => df_filtered.columns.contains c) then
          .ok ({m1 with df := some (.grouped df_filtered (dfGroupby cols df_filtered))},
            .grouped df_filtered (dfGroupby cols df_filtered))
        else
          .error (.keyErrorGroupBy (cols.filter (fun c => !df_filtered.columns.contains c)))

/-- A full DICOM dataset as read and written by `_anonymize_single_dicom`:
its tag-value entries. -/
structure FileDataset where
  entries : List (String × String)
  deriving DecidableEq

/-- One iteration of the clearing loop (lines 271-273):
`if tag in dicom_data: dicom_data[tag].value = ""`. -/
def clearOne (d : FileDataset) (tag : String) : FileDataset :=
  if (d.entries.map Prod.fst).contains tag then
    ⟨d.entries.map (fun kv => if kv.fst == tag then (kv.fst, "") else kv)⟩
  else d

/-- The clearing loop `for tag in clear_tags: ...` of
`_anonymize_single_dicom`. -/
def clearDicomTags (d : FileDataset) (clear_tags : List String) : FileDataset :=
  clear_tags.foldl clearOne d

/-- `DicomManager._anonymize_single_dicom` (lines 254-284): read the file,
clear the listed tags, set `output_path = output_directory` and save there;
any exception is caught and turned into `None`. `dcmread` and `save_as` are
the pydicom collaborators (`none` / `false` = the call raised). -/
def _anonymize_single_dicom (dcmread : String → Option FileDataset)
    (save_as : String → FileDataset → Bool) (dicom_path : String)
    (clear_tags : List String) (output_directory : String) : Option String :=
  match dcmread dicom_path with
  | none => none
  | some dicom_data =>
    let anonymized := clearDicomTags dicom_data clear_tags
    let output_path := output_directory
    if save_as output_path anonymized then some output_path else none

/-! ### Concrete scenario data used by witnesses and counterexamples -/

/-- A directory holding three valid DICOM files and one non-conforming
file (`root/bad.dcm`). -/
def scenarioEnv : DicomEnv where
  dcmread := fun p =>
    if p == "root/bad.dcm" then .invalidDicom
    else .dataset (fun tag =>
      if tag == "PatientID" then some (if p == "root/a.dcm" then "P1" else "P2")
      else none)
  walk := fun _ => [("root", ["a.dcm", "b.dcm", "c.dcm", "bad.dcm"])]
  completionOrder := [3, 1, 0, 2]

def scenarioRowA : DfRow :=
  some [("PatientID", some "P1"), ("filename", some "root/a.dcm")]

def scenarioRowB : DfRow :=
  some [("PatientID", some "P2"), ("filename", some "root/b.dcm")]

def scenarioRowC : DfRow :=
  some [("PatientID", some "P2"), ("filename", some "root/c.dcm")]

/-- What the sequential catalog scan of `scenarioEnv` produces. -/
def scenarioRows : List DfRow :=
  [scenarioRowA, scenarioRowB, scenarioRowC, none]

/-- A pydicom reader that succeeds on every path with the same record. -/
def constRead : String → Option FileDataset :=
  fun _ => some ⟨[("PatientID", "1")]⟩

/-- A `save_as` that succeeds on every target path. -/
def constSave : String → FileDataset → Bool :=
  fun _ _ => true

/-- An environment whose directory is empty (never consulted by the
preloaded managers below). -/
def emptyEnv : DicomEnv :=
  ⟨fun _ => .invalidDicom, fun _ => [], []⟩

/-- The catalog of the three valid scenario files. -/
def witnessDf : PdDataFrame :=
  pdDataFrame [scenarioRowA, scenarioRowB, scenarioRowC]

/-- A manager whose catalog is already loaded (flat). -/
def witnessManager : DicomManager :=
  ⟨"root", ["PatientID"], none, some (.single "PatientID"), some (.flat witnessDf)⟩

/-- A row predicate: keep the rows of patient P2. -/
def witnessFilter : DfRow → Bool :=
  fun r => dfCell r "PatientID" == some "P2"

/-! ## Lemmas about the result-collection loop -/

theorem processTask_eq_skip (f : α → Option β) (args : List α)
    (st : LoopState α β) (idx : Nat) (h : args[idx]? = none) :
    processTask f args st idx = st := by
  simp [processTask, h]

theorem processTask_eq_store (f : α → Option β) (args : List α)
    (st : LoopState α β) (idx : Nat) (a : α) (v : β)
    (ha : args[idx]? = some a) (hv : f a = some v) :
    processTask f args st idx =
      ⟨st.results.set idx (some v), st.failureLog, st.progress + 1⟩ := by
  simp [processTask, ha, hv]

theorem processTask_eq_fail (f : α → Option β) (args : List α)
    (st : LoopState α β) (idx : Nat) (a : α)
    (ha : args[idx]? = some a) (hv : f a = none) :
    processTask f args st idx =
      ⟨st.results, st.failureLog ++ [(idx, a)], st.progress + 1⟩ := by
  simp [processTask, ha, hv]

theorem processTask_results_length (f : α → Option β) (args : List α)
    (st : LoopState α β) (idx : Nat) :
    (processTask f args st idx).results.length = st.results.length := by
  cases ha : args[idx]? with
  | none => rw [processTask_eq_skip f args st idx ha]
  | some a =>
    cases hv : f a with
    | some v => rw [processTask_eq_store f args st idx a v ha hv]; simp
    | none => rw [processTask_eq_fail f args st idx a ha hv]

theorem foldl_processTask_results_length (f : α → Option β) (args : List α)
    (l : List Nat) (st : LoopState α β) :
    (l.foldl (processTask f args) st).results.length = st.results.length := by
  induction l generalizing st with
  | nil => rfl
  | cons x xs ih => simp [List.foldl_cons, ih, processTask_results_length]

theorem processTask_results_getElem?_ne (f : α → Option β) (args : List α)
    (st : LoopState α β) (idx j : Nat) (h : j ≠ idx) :
    (processTask f args st idx).results[j]? = st.results[j]? := by
  cases ha : args[idx]? with
  | none => rw [processTask_eq_skip f args st idx ha]
  | some a =>
    cases hv : f a with
    | some v =>
      rw [processTask_eq_store f args st idx a v ha hv]
      simp [List.getElem?_set_ne (Ne.symm h)]
    | none => rw [processTask_eq_fail f args st idx a ha hv]

/-- After processing index `idx`, slot `idx` holds exactly `f a` (stored on
success, left at its initial `none` on failure). -/
theorem processTask_results_getElem?_self (f : α → Option β) (args : List α)
    (st : LoopState α β) (idx : Nat) (a : α) (ha : args[idx]? = some a)
    (hst : st.results[idx]? = some none ∨ st.results[idx]? = some (f a)) :
    (processTask f args st idx).results[idx]? = some (f a) := by
  have hlt : idx < st.results.length := by
    rcases hst with h | h <;>
      exact (List.getElem?_eq_some_iff.mp h).1
  cases hfa : f a with
  | some v =>
    rw [processTask_eq_store f args st idx a v ha hfa]
    simp [List.getElem?_set_self hlt]
  | none =>
    rw [processTask_eq_fail f args st idx a ha hfa]
    rcases hst with h | h
    · simpa using h
    · rw [hfa] at h; simpa using h

/-- Once slot `idx` holds `f a`, further processing never changes it. -/
theorem foldl_processTask_results_stable (f : α → Option β) (args : List α)
    (l : List Nat) (st : LoopState α β) (idx : Nat) (a : α)
    (ha : args[idx]? = some a) (hst : st.results[idx]? = some (f a)) :
    (l.foldl (processTask f args) st).results[idx]? = some (f a) := by
  induction l generalizing st with
  | nil => exact hst
  | cons x xs ih =>
    rw [List.foldl_cons]
    apply ih
    by_cases hx : idx = x
    · subst hx
      exact processTask_results_getElem?_self f args st idx a ha (Or.inr hst)
    · rw [processTask_results_getElem?_ne f args st x idx hx]
      exact hst

/-- If index `idx` is processed at some point, the final slot `idx` holds
`f a`, whatever the completion order. -/
theorem foldl_processTask_results_of_mem (f : α → Option β) (args : List α)
    (l : List Nat) (st : LoopState α β) (idx : Nat) (a : α)
    (ha : args[idx]? = some a)
    (hst : st.results[idx]? = some none ∨ st.results[idx]? = some (f a))
    (hmem : idx ∈ l) :
    (l.foldl (processTask f args) st).results[idx]? = some (f a) := by
  induction l generalizing st with
  | nil => cases hmem
  | cons x xs ih =>
    rw [List.foldl_cons]
    by_cases hx : idx = x
    · subst hx
      exact foldl_processTask_results_stable f args xs _ idx a ha
        (processTask_results_getElem?_self f args st idx a ha hst)
    · rcases List.mem_cons.mp hmem with h | h
      · exact absurd h hx
      · refine ih _ ?_ h
        rw [processTask_results_getElem?_ne f args st x idx hx]
        exact hst

/-- The failure log only grows. -/
theorem foldl_processTask_failureLog_mono (f : α → Option β) (args : List α)
    (l : List Nat) (st : LoopState α β) (e : Nat × α)
    (he : e ∈ st.failureLog) :
    e ∈ (l.foldl (processTask f args) st).failureLog := by
  induction l generalizing st with
  | nil => exact he
  | cons x xs ih =>
    rw [List.foldl_cons]
    apply ih
    cases ha : args[x]? with
    | none => rw [processTask_eq_skip f args st x ha]; exact he
    | some a =>
      cases hv : f a with
      | some v => rw [processTask_eq_store f args st x a v ha hv]; exact he
      | none =>
        rw [processTask_eq_fail f args st x a ha hv]
        exact List.mem_append_left _ he

/-- Every processed failing task gets a log entry `(idx, arguments)`. -/
theorem foldl_processTask_failureLog_of_mem (f : α → Option β) (args : List α)
    (l : List Nat) (st : LoopState α β) (idx : Nat) (a : α)
    (ha : args[idx]? = some a) (hfail : f a = none) (hmem : idx ∈ l) :
    (idx, a) ∈ (l.foldl (processTask f args) st).failureLog := by
  induction l generalizing st with
  | nil => cases hmem
  | cons x xs ih =>
    rw [List.foldl_cons]
    by_cases hx : idx = x
    · subst hx
      apply foldl_processTask_failureLog_mono
      rw [processTask_eq_fail f args st idx a ha hfail]
      simp
    · rcases List.mem_cons.mp hmem with h | h
      · exact absurd h hx
      · exact ih (processTask f args st x) h

/-! ## Behaviour of `runLoop` and `parallel_tasks` -/

theorem runLoop_results_length (f : α → Option β) (args : List α)
    (order : List Nat) :
    (runLoop f args order).results.length = args.length := by
  unfold runLoop
  rw [foldl_processTask_results_length]
  exact List.length_replicate _ _

theorem runLoop_results_getElem? (f : α → Option β) (args : List α)
    (order : List Nat) (i : Nat) (a : α)
    (ha : args[i]? = some a) (hmem : i ∈ order) :
    (runLoop f args order).results[i]? = some (f a) := by
  have hlt : i < args.length := (List.getElem?_eq_some_iff.mp ha).1
  unfold runLoop
  exact foldl_processTask_results_of_mem f args order _ i a ha
    (Or.inl (by simp [hlt])) hmem

theorem runLoop_failureLog_mem (f : α → Option β) (args : List α)
    (order : List Nat) (i : Nat) (a : α)
    (ha : args[i]? = some a) (hfail : f a = none) (hmem : i ∈ order) :
    (i, a) ∈ (runLoop f args order).failureLog := by
  unfold runLoop
  exact foldl_processTask_failureLog_of_mem f args order _ i a ha hfail hmem

/-- The result list is fully determined, independently of the processing
order, as long as every index is processed at some point. -/
theorem runLoop_results_eq (f : α → Option β) (args : List α)
    (order₁ order₂ : List Nat)
    (h₁ : ∀ i, i < args.length → i ∈ order₁)
    (h₂ : ∀ i, i < args.length → i ∈ order₂) :
    (runLoop f args order₁).results = (runLoop f args order₂).results := by
  apply List.ext_getElem?
  intro n
  cases ha : args[n]? with
  | some a =>
    rw [runLoop_results_getElem? f args order₁ n a ha
        (h₁ n (List.getElem?_eq_some_iff.mp ha).1),
      runLoop_results_getElem? f args order₂ n a ha
        (h₂ n (List.getElem?_eq_some_iff.mp ha).1)]
  | none =>
    have hn : args.length ≤ n := by
      by_contra hlt
      rcases List.getElem?_eq_some_iff.mpr ⟨Nat.lt_of_not_le hlt, rfl⟩ with h
      rw [ha] at h; cases h
    rw [List.getElem?_eq_none (by rw [runLoop_results_length]; exact hn),
      List.getElem?_eq_none (by rw [runLoop_results_length]; exact hn)]

theorem parallel_tasks_sequential (f : α → Option β) (args : List α)
    (w : Option Int) (ord : List Nat) :
    parallel_tasks f args w true ord =
      .ok ⟨(runLoop f args (List.range args.length)).results,
           (runLoop f args (List.range args.length)).failureLog,
           (runLoop f args (List.range args.length)).progress, false⟩ := rfl

theorem parallel_tasks_pool_error (f : α → Option β) (args : List α)
    (w : Option Int) (ord : List Nat)
    (h : effectiveWorkers args.length w ≤ 0) :
    parallel_tasks f args w false ord = .error .valueErrorMaxWorkers := by
  simp [parallel_tasks, h]

theorem parallel_tasks_pool_ok (f : α → Option β) (args : List α)
    (w : Option Int) (ord : List Nat)
    (h : 0 < effectiveWorkers args.length w) :
    parallel_tasks f args w false ord =
      .ok ⟨(runLoop f args ord).results, (runLoop f args ord).failureLog,
           (runLoop f args ord).progress, true⟩ := by
  simp [parallel_tasks, Int.not_le.mpr h]

/-- Whatever mode, if the run returns at all it is the loop over some order
covering all indices. -/
theorem parallel_tasks_ok_spec (f : α → Option β) (args : List α)
    (w : Option Int) (forceSingleThread : Bool) (ord : List Nat)
    (hord : forceSingleThread = false → ord.Perm (List.range args.length))
    (hvalid : forceSingleThread = true ∨ 0 < effectiveWorkers args.length w) :
    ∃ r : RunResult α β, parallel_tasks f args w forceSingleThread ord = .ok r ∧
      r.results.length = args.length ∧
      (∀ (i : Nat) (a : α), args[i]? = some a → r.results[i]? = some (f a)) ∧
      (∀ (i : Nat) (a : α), args[i]? = some a → f a = none →
        (i, a) ∈ r.failureLog) := by
  cases forceSingleThread with
  | true =>
    refine ⟨_, parallel_tasks_sequential f args w ord, ?_, ?_, ?_⟩
    · exact runLoop_results_length f args _
    · intro i a ha
      exact runLoop_results_getElem? f args _ i a ha
        (List.mem_range.mpr (List.getElem?_eq_some_iff.mp ha).1)
    · intro i a ha hfail
      exact runLoop_failureLog_mem f args _ i a ha hfail
        (List.mem_range.mpr (List.getElem?_eq_some_iff.mp ha).1)
  | false =>
    rcases hvalid with h | h
    · cases h
    · refine ⟨_, parallel_tasks_pool_ok f args w ord h, ?_, ?_, ?_⟩
      · exact runLoop_results_length f args _
      · intro i a ha
        exact runLoop_results_getElem? f args ord i a ha
          (((hord rfl).mem_iff).mpr
            (List.mem_range.mpr (List.getElem?_eq_some_iff.mp ha).1))
      · intro i a ha hfail
        exact runLoop_failureLog_mem f args ord i a ha hfail
          (((hord rfl).mem_iff).mpr
            (List.mem_range.mpr (List.getElem?_eq_some_iff.mp ha).1))

/-! ## Claims C1-C5 about the task runner -/

/-- C1, counterexample: the claim quantifies over every worker count, but
with `num_workers = -1` and a singleton argument list the pool branch
computes `min(1, -1 or 1) = -1` and `ProcessPoolExecutor` raises
`ValueError`, so no sequence is returned at all. -/
theorem claim_C1_counterexample :
    parallel_tasks (fun n : Nat => some n) [5] (some (-1)) false [0] =
      .error .valueErrorMaxWorkers := rfl

/-- C1 (amended): whenever the run does not die constructing the pool —
i.e. in forced-sequential mode, or in pool mode with a positive effective
worker count `min(N, num_workers or 1)` — `parallel_tasks` returns a list
of exactly length N whose slot `i` holds the value of `function` on
argument `i` whenever that call does not fail, for every completion
order. -/
theorem claim_C1 (f : α → Option β) (args : List α) (w : Option Int)
    (forceSingleThread : Bool) (ord : List Nat)
    (hord : forceSingleThread = false → ord.Perm (List.range args.length))
    (hvalid : forceSingleThread = true ∨ 0 < effectiveWorkers args.length w) :
    ∃ r : RunResult α β,
      parallel_tasks f args w forceSingleThread ord = .ok r ∧
      r.results.length = args.length ∧
      ∀ (i : Nat) (a : α), args[i]? = some a → r.results[i]? = some (f a) := by
  obtain ⟨r, h1, h2, h3, _⟩ := parallel_tasks_ok_spec f args w forceSingleThread ord hord hvalid
  exact ⟨r, h1, h2, h3⟩

/-- Witness for C1 at a concrete input. -/
theorem claim_C1_witness :
    ∃ r : RunResult Nat Nat,
      parallel_tasks (fun n : Nat => some (n + 1)) [10, 20] (some 2) false [1, 0] =
        .ok r ∧
      r.results.length = 2 ∧
      ∀ (i : Nat) (a : Nat),
        [10, 20][i]? = some a → r.results[i]? = some (some (a + 1)) :=
  claim_C1 (fun n : Nat => some (n + 1)) [10, 20] (some 2) false [1, 0]
    (fun _ => by decide) (Or.inr (by decide))

/-- C2: a work-function failure at index `i` is caught inside the runner
(the run still returns `.ok`), slot `i` holds the absent marker `none`,
the pair `(i, arguments_list[i])` is logged, and every other slot holds the
value the work function computes for it. -/
theorem claim_C2 (f : α → Option β) (args : List α) (w : Option Int)
    (forceSingleThread : Bool) (ord : List Nat)
    (hord : forceSingleThread = false → ord.Perm (List.range args.length))
    (hvalid : forceSingleThread = true ∨ 0 < effectiveWorkers args.length w)
    (i : Nat) (a : α) (ha : args[i]? = some a) (hfail : f a = none) :
    ∃ r : RunResult α β,
      parallel_tasks f args w forceSingleThread ord = .ok r ∧
      r.results.length = args.length ∧
      r.results[i]? = some none ∧
      (i, a) ∈ r.failureLog ∧
      ∀ (j : Nat) (b : α), args[j]? = some b → r.results[j]? = some (f b) := by
  obtain ⟨r, h1, h2, h3, h4⟩ := parallel_tasks_ok_spec f args w forceSingleThread ord hord hvalid
  refine ⟨r, h1, h2, ?_, h4 i a ha hfail, h3⟩
  have h := h3 i a ha
  rw [hfail] at h
  exact h

/-- Witness for C2: the spec scenario — a batch of 5 tasks where only
index 2 raises, run on a pool of 3 workers with a scrambled completion
order. -/
theorem claim_C2_witness :
    ∃ r : RunResult Nat Nat,
      parallel_tasks (fun n : Nat => if n = 2 then none else some (n * 10))
        [0, 1, 2, 3, 4] (some 3) false [4, 2, 0, 3, 1] = .ok r ∧
      r.results.length = 5 ∧
      r.results[2]? = some none ∧
      (2, 2) ∈ r.failureLog ∧
      ∀ (j : Nat) (b : Nat), [0, 1, 2, 3, 4][j]? = some b →
        r.results[j]? = some (if b = 2 then none else some (b * 10)) :=
  claim_C2 (fun n : Nat => if n = 2 then none else some (n * 10))
    [0, 1, 2, 3, 4] (some 3) false [4, 2, 0, 3, 1]
    (fun _ => by decide) (Or.inr (by decide)) 2 2 (by decide) (by decide)

/-- C3, counterexample: `num_workers = -2` on a 5-task batch is not treated
as 1 — the effective `max_workers` is `min(5, -2) = -2`, not
`max(1, min(-2, 5)) = 1`, and the call raises `ValueError` instead of
returning its normal result sequence. -/
theorem claim_C3_counterexample :
    effectiveWorkers 5 (some (-2)) = -2 ∧
    effectiveWorkers 5 (some (-2)) ≠ max 1 (min (-2) 5) ∧
    parallel_tasks (fun n : Nat => some n) [1, 2, 3, 4, 5] (some (-2)) false
      [0, 1, 2, 3, 4] = .error .valueErrorMaxWorkers :=
  ⟨by decide, by decide, rfl⟩

/-- C3 (amended): the effective concurrency is `min(N, num_workers or 1)`.
This equals the claimed `max(1, min(worker_count, N))` when `N ≥ 1` and the
coerced worker count is at least 1 (in particular `worker_count = 0` or
`None` is treated as 1); but a negative worker count, or `N = 0`, makes the
effective value nonpositive and the pool branch raises `ValueError` rather
than coercing to 1; with a positive effective value the call returns its
normal length-`N` result sequence. -/
theorem claim_C3 {α β : Type} (n : Nat) (w : Option Int) :
    (1 ≤ n → 1 ≤ pyOrOne w →
      effectiveWorkers n w = max 1 (min (pyOrOne w) (n : Int))) ∧
    (pyOrOne w ≤ 0 ∨ n = 0 → effectiveWorkers n w ≤ 0) ∧
    (∀ (f : α → Option β) (args : List α) (ord : List Nat),
      args.length = n → effectiveWorkers n w ≤ 0 →
      parallel_tasks f args w false ord = .error .valueErrorMaxWorkers) ∧
    (∀ (f : α → Option β) (args : List α) (ord : List Nat),
      args.length = n → ord.Perm (List.range n) →
      0 < effectiveWorkers n w →
      ∃ r : RunResult α β, parallel_tasks f args w false ord = .ok r ∧
        r.results.length = n) := by
  refine ⟨?_, ?_, ?_, ?_⟩
  · intro h1 h2
    unfold effectiveWorkers
    omega
  · intro h
    unfold effectiveWorkers
    omega
  · intro f args ord hlen heff
    subst hlen
    exact parallel_tasks_pool_error f args w ord heff
  · intro f args ord hlen hperm heff
    subst hlen
    obtain ⟨r, h1, h2, _, _⟩ :=
      parallel_tasks_ok_spec f args w false ord (fun _ => hperm) (Or.inr heff)
    exact ⟨r, h1, h2⟩

/-- Witness for C3: worker count 7 on a 3-task batch caps at 3 (matching
the claimed formula there), while worker count -1 on a 2-task batch raises
`ValueError`. -/
theorem claim_C3_witness :
    effectiveWorkers 3 (some 7) = max 1 (min 7 3) ∧
    parallel_tasks (fun n : Nat => some n) [1, 2] (some (-1)) false [0, 1] =
      .error .valueErrorMaxWorkers := by
  constructor
  · exact (claim_C3 (α := Nat) (β := Nat) 3 (some 7)).1 (by decide) (by decide)
  · exact (claim_C3 (α := Nat) (β := Nat) 2 (some (-1))).2.2.1
      (fun n : Nat => some n) [1, 2] [0, 1] rfl (by decide)

/-- C4, counterexample: on the empty argument list the two modes do not
produce identical outputs — forced-sequential returns the empty sequence,
while pool mode computes `max_workers = min(0, 2) = 0` and raises
`ValueError`. -/
theorem claim_C4_counterexample :
    parallel_tasks (fun n : Nat => some n) [] (some 2) true [] =
      .ok ⟨[], [], 0, false⟩ ∧
    parallel_tasks (fun n : Nat => some n) [] (some 2) false [] =
      .error .valueErrorMaxWorkers := ⟨rfl, rfl⟩

/-- C4 (amended): whenever the pool branch does not die constructing the
pool (positive effective worker count), forced-sequential mode and pool
mode return identical result sequences, for every completion order of the
pool run. -/
theorem claim_C4 (f : α → Option β) (args : List α) (w : Option Int)
    (ord : List Nat) (hord : ord.Perm (List.range args.length))
    (hpos : 0 < effectiveWorkers args.length w) :
    Except.map RunResult.results (parallel_tasks f args w false ord) =
      Except.map RunResult.results (parallel_tasks f args w true ord) := by
  rw [parallel_tasks_pool_ok f args w ord hpos,
    parallel_tasks_sequential f args w ord]
  simp only [Except.map]
  congr 1
  exact runLoop_results_eq f args ord _
    (fun i h => hord.mem_iff.mpr (List.mem_range.mpr h))
    (fun i h => List.mem_range.mpr h)

/-- Witness for C4 at a concrete deterministic work function. -/
theorem claim_C4_witness :
    Except.map RunResult.results
        (parallel_tasks (fun n : Nat => some (n * n)) [1, 2, 3] (some 2) false
          [2, 0, 1]) =
      Except.map RunResult.results
        (parallel_tasks (fun n : Nat => some (n * n)) [1, 2, 3] (some 2) true
          [2, 0, 1]) :=
  claim_C4 (fun n : Nat => some (n * n)) [1, 2, 3] (some 2) [2, 0, 1]
    (by decide) (by decide)

/-- C5, counterexample: with an empty argument list the pool branch does
not return the empty sequence — `ProcessPoolExecutor(max_workers=min(0, 4))`
raises `ValueError`. -/
theorem claim_C5_counterexample :
    parallel_tasks (fun n : Nat => some n) [] (some 4) false [] =
      .error .valueErrorMaxWorkers := rfl

/-- C5 (amended): on the empty argument list, forced-sequential mode
returns the empty sequence immediately, with no worker pool created, no
failure logged and zero progress updates; but pool mode (for every
requested worker count) attempts to build a pool with
`max_workers = min(0, num_workers or 1) <= 0` and raises `ValueError`. -/
theorem claim_C5 (f : α → Option β) (w : Option Int) (ord : List Nat) :
    parallel_tasks f [] w true ord =
      .ok ⟨([] : List (Option β)), ([] : List (Nat × α)), 0, false⟩ ∧
    parallel_tasks f [] w false ord = .error .valueErrorMaxWorkers := by
  constructor
  · rfl
  · apply parallel_tasks_pool_error
    simp only [List.length_nil, effectiveWorkers]
    omega

/-! ## Claims C6-C8: catalog scan and anonymization -/

theorem mem_iff_contains {l : List String} {a : String} :
    l.contains a = true ↔ a ∈ l := by
  simp [List.contains, List.elem_iff]

/-- C6: the scenario of 3 valid files plus 1 non-conforming file. The
parallel scan (num_workers given) filters the `None` of the invalid file
and yields exactly 3 rows, but the sequential scan (num_workers=None) keeps
the `None` entry and hands pandas a 4-element list. -/
theorem claim_C6 :
    _get_dicom_info_parallel scenarioEnv "root" ["PatientID"] (some 2) =
      .ok [scenarioRowA, scenarioRowB, scenarioRowC] ∧
    _get_dicom_info_parallel scenarioEnv "root" ["PatientID"] none =
      .ok scenarioRows ∧
    scenarioRows.length = 4 ∧ none ∈ scenarioRows := by
  refine ⟨by decide, by decide, rfl, ?_⟩
  simp [scenarioRows]

/-- C7: `_anonymize_single_dicom` sets `output_path = output_directory`
unchanged, so two distinct input files are written to the same output
path — no filename is ever derived from the input. -/
theorem claim_C7 :
    _anonymize_single_dicom constRead constSave "in/a.dcm" [] "out" =
      some "out" ∧
    _anonymize_single_dicom constRead constSave "in/b.dcm" [] "out" =
      some "out" ∧
    "in/a.dcm" ≠ "in/b.dcm" :=
  ⟨rfl, rfl, by decide⟩

theorem clearOne_keys (d : FileDataset) (tag : String) :
    (clearOne d tag).entries.map Prod.fst = d.entries.map Prod.fst := by
  unfold clearOne
  split
  · show (d.entries.map (fun kv => if kv.fst == tag then (kv.fst, "") else kv)).map
        Prod.fst = d.entries.map Prod.fst
    rw [List.map_map]
    apply List.map_congr_left
    intro kv _
    by_cases h : kv.fst = tag <;> simp [h]
  · rfl

theorem clearDicomTags_keys (d : FileDataset) (clear_tags : List String) :
    (clearDicomTags d clear_tags).entries.map Prod.fst =
      d.entries.map Prod.fst := by
  induction clear_tags generalizing d with
  | nil => rfl
  | cons c cs ih =>
    show (clearDicomTags (clearOne d c) cs).entries.map Prod.fst = _
    rw [ih (clearOne d c), clearOne_keys d c]

/-- Applying one clearing step to an entry: the value becomes empty when the
key matches, and is untouched otherwise. -/
theorem clearOne_mem (d : FileDataset) (tag t v : String)
    (h : (t, v) ∈ d.entries) :
    (t, if t == tag then "" else v) ∈ (clearOne d tag).entries := by
  unfold clearOne
  by_cases hc : (d.entries.map Prod.fst).contains tag = true
  · rw [if_pos hc]
    refine List.mem_map.mpr ⟨(t, v), h, ?_⟩
    by_cases ht : t = tag <;> simp [ht]
  · rw [if_neg hc]
    have ht : (t == tag) = false := by
      by_contra hne
      have : t = tag := by
        have := eq_true_of_ne_false hne
        exact eq_of_beq this
      apply hc
      apply mem_iff_contains.mpr
      rw [← this]
      exact List.mem_map.mpr ⟨(t, v), h, rfl⟩
    rw [ht]
    simpa using h

theorem clearDicomTags_mem_empty (d : FileDataset) (clear_tags : List String)
    (t : String) (h : (t, "") ∈ d.entries) :
    (t, "") ∈ (clearDicomTags d clear_tags).entries := by
  induction clear_tags generalizing d with
  | nil => exact h
  | cons c cs ih =>
    have h2 := clearOne_mem d c t "" h
    rw [ite_self] at h2
    exact ih (clearOne d c) h2

theorem clearDicomTags_mem_cleared (d : FileDataset) (clear_tags : List String)
    (t v : String) (hv : (t, v) ∈ d.entries) (ht : t ∈ clear_tags) :
    (t, "") ∈ (clearDicomTags d clear_tags).entries := by
  induction clear_tags generalizing d v with
  | nil => cases ht
  | cons c cs ih =>
    by_cases hc : t = c
    · subst hc
      have h2 := clearOne_mem d t t v hv
      simp only [beq_self_eq_true, if_true] at h2
      exact clearDicomTags_mem_empty (clearOne d t) cs t h2
    · rcases List.mem_cons.mp ht with h | h
      · exact absurd h hc
      · exact ih (clearOne d c) _ (clearOne_mem d c t v hv) h

theorem clearDicomTags_mem_unlisted (d : FileDataset) (clear_tags : List String)
    (t v : String) (hv : (t, v) ∈ d.entries) (ht : ¬ t ∈ clear_tags) :
    (t, v) ∈ (clearDicomTags d clear_tags).entries := by
  induction clear_tags generalizing d with
  | nil => exact hv
  | cons c cs ih =>
    have hne : t ≠ c := fun h => ht (h ▸ List.mem_cons_self c cs)
    have h2 := clearOne_mem d c t v hv
    rw [beq_eq_false_iff_ne.mpr hne] at h2
    simp only [Bool.false_eq_true, if_false] at h2
    exact ih (clearOne d c) h2 (fun hmem => ht (List.mem_cons_of_mem c hmem))

theorem clearDicomTags_noop (d : FileDataset) (clear_tags : List String)
    (h : ∀ c, c ∈ clear_tags → ¬ c ∈ d.entries.map Prod.fst) :
    clearDicomTags d clear_tags = d := by
  induction clear_tags with
  | nil => rfl
  | cons c cs ih =>
    have h1 : clearOne d c = d := by
      unfold clearOne
      rw [if_neg]
      intro hc
      exact h c (List.mem_cons_self c cs) (mem_iff_contains.mp hc)
    show clearDicomTags (clearOne d c) cs = d
    rw [h1]
    exact ih (fun x hx => h x (List.mem_cons_of_mem c hx))

/-- C8: when the read and the save succeed, every listed tag present on the
record has its value overwritten by the empty string while the key set of
the record is unchanged; entries with unlisted tags are untouched; a listed
tag absent from the record is a no-op (the record is unchanged when no
listed tag is present) and the file is still written with no failure. -/
theorem claim_C8 (dcmread : String → Option FileDataset)
    (save_as : String → FileDataset → Bool) (dicom_path : String)
    (clear_tags : List String) (output_directory : String) (d : FileDataset)
    (hread : dcmread dicom_path = some d)
    (hsave : save_as output_directory (clearDicomTags d clear_tags) = true) :
    _anonymize_single_dicom dcmread save_as dicom_path clear_tags
        output_directory = some output_directory ∧
    (clearDicomTags d clear_tags).entries.map Prod.fst =
      d.entries.map Prod.fst ∧
    (∀ t v, (t, v) ∈ d.entries → t ∈ clear_tags →
      (t, "") ∈ (clearDicomTags d clear_tags).entries) ∧
    (∀ t v, (t, v) ∈ d.entries → ¬ t ∈ clear_tags →
      (t, v) ∈ (clearDicomTags d clear_tags).entries) ∧
    ((∀ t, t ∈ clear_tags → ¬ t ∈ d.entries.map Prod.fst) →
      clearDicomTags d clear_tags = d) := by
  refine ⟨?_, clearDicomTags_keys d clear_tags,
    fun t v hv ht => clearDicomTags_mem_cleared d clear_tags t v hv ht,
    fun t v hv ht => clearDicomTags_mem_unlisted d clear_tags t v hv ht,
    clearDicomTags_noop d clear_tags⟩
  unfold _anonymize_single_dicom
  rw [hread]
  simp [hsave]

/-- Witness for C8: the spec scenario — clearing `PatientName` on a record
that lacks that field leaves the record unchanged and the file is still
written. -/
theorem claim_C8_witness :
    _anonymize_single_dicom (fun _ => some ⟨[("Modality", "US")]⟩)
        (fun _ _ => true) "in/a.dcm" ["PatientName"] "out/a.dcm" =
      some "out/a.dcm" ∧
    clearDicomTags ⟨[("Modality", "US")]⟩ ["PatientName"] =
      ⟨[("Modality", "US")]⟩ := by
  have h := claim_C8 (fun _ => some ⟨[("Modality", "US")]⟩) (fun _ _ => true)
    "in/a.dcm" ["PatientName"] "out/a.dcm" ⟨[("Modality", "US")]⟩ rfl rfl
  exact ⟨h.1, h.2.2.2.2 (by decide)⟩

/-! ## Claims C9-C10: group-by checking and filter side effects -/

/-- Every row placed in a group of `dfGroupby` has exactly that group's
key. -/
theorem dfGroupby_key (columns : List String) (df : PdDataFrame)
    (p : List String × List DfRow) (hp : p ∈ dfGroupby columns df)
    (r : DfRow) (hr : r ∈ p.snd) : groupKey columns r = some p.fst := by
  unfold dfGroupby at hp
  rcases List.mem_map.mp hp with ⟨k, hk, rfl⟩
  rcases List.mem_map.mp hr with ⟨q, hq, rfl⟩
  have hq' := List.mem_filter.mp hq
  rcases List.mem_filterMap.mp hq'.1 with ⟨row, hrow, hmap⟩
  rcases Option.map_eq_some'.mp hmap with ⟨key, hkey, rfl⟩
  have hbeq : key = k := by simpa using hq'.2
  subst hbeq
  simpa using hkey

/-- Every row whose key is fully present lands in the group of its key. -/
theorem dfGroupby_complete (columns : List String) (df : PdDataFrame)
    (r : DfRow) (k : List String) (hr : r ∈ df.rows)
    (hk : groupKey columns r = some k) :
    ∃ p, p ∈ dfGroupby columns df ∧ p.fst = k ∧ r ∈ p.snd := by
  have hkr : (k, r) ∈ dfKeyed columns df := by
    apply List.mem_filterMap.mpr
    exact ⟨r, hr, by rw [hk]; rfl⟩
  have hkmem : k ∈ ((dfKeyed columns df).map Prod.fst).dedup :=
    List.mem_dedup.mpr (List.mem_map.mpr ⟨(k, r), hkr, rfl⟩)
  refine ⟨(k, ((dfKeyed columns df).filter (fun q => q.fst == k)).map Prod.snd),
    ?_, rfl, ?_⟩
  · unfold dfGroupby
    exact List.mem_map.mpr ⟨k, hkmem, rfl⟩
  · exact List.mem_map.mpr ⟨(k, r), List.mem_filter.mpr ⟨hkr, by simp⟩, rfl⟩

/-- Reduction of `_get_dicom_info` once the scan result is known: it is
exactly the column check followed by either the grouping or the error. -/
theorem _get_dicom_info_eq (env : DicomEnv) (directory : String)
    (tags : List String) (gb : GroupBySpec) (num_workers : Option Int)
    (dicom_info : List DfRow)
    (hinfo : _get_dicom_info_parallel env directory tags num_workers =
      .ok dicom_info) :
    _get_dicom_info env directory tags (some gb) num_workers =
      if (gb.toColumnList.all
          (fun col => (pdDataFrame dicom_info).columns.contains col)) = true
      then .ok (.grouped (pdDataFrame dicom_info)
        (dfGroupby gb.toColumnList (pdDataFrame dicom_info)))
      else .error (.valueErrorGroupBy
        (gb.toColumnList.filter
          (fun col => !(pdDataFrame dicom_info).columns.contains col))
        (pdDataFrame dicom_info).columns) := by
  unfold _get_dicom_info
  rw [hinfo]

/-- C9: when the scan succeeds, a group-by request whose columns are not
all present in the DataFrame raises `ValueError` naming exactly the missing
columns, before any partitioning; when all columns are present the result
is the frame partitioned by equality of those columns' values (each group's
rows carry the group's key, and every fully-keyed row is in the group of
its key). -/
theorem claim_C9 (env : DicomEnv) (directory : String) (tags : List String)
    (gb : GroupBySpec) (num_workers : Option Int) (dicom_info : List DfRow)
    (hinfo : _get_dicom_info_parallel env directory tags num_workers =
      .ok dicom_info) :
    (gb.toColumnList.all
        (fun col => (pdDataFrame dicom_info).columns.contains col) = false →
      _get_dicom_info env directory tags (some gb) num_workers =
        .error (.valueErrorGroupBy
          (gb.toColumnList.filter
            (fun col => !(pdDataFrame dicom_info).columns.contains col))
          (pdDataFrame dicom_info).columns)) ∧
    (gb.toColumnList.all
        (fun col => (pdDataFrame dicom_info).columns.contains col) = true →
      _get_dicom_info env directory tags (some gb) num_workers =
        .ok (.grouped (pdDataFrame dicom_info)
          (dfGroupby gb.toColumnList (pdDataFrame dicom_info))) ∧
      (∀ p, p ∈ dfGroupby gb.toColumnList (pdDataFrame dicom_info) →
        ∀ r, r ∈ p.snd → groupKey gb.toColumnList r = some p.fst) ∧
      (∀ r, r ∈ dicom_info → ∀ k, groupKey gb.toColumnList r = some k →
        ∃ p, p ∈ dfGroupby gb.toColumnList (pdDataFrame dicom_info) ∧
          p.fst = k ∧ r ∈ p.snd)) := by
  constructor
  · intro h
    rw [_get_dicom_info_eq env directory tags gb num_workers dicom_info hinfo,
      if_neg (fun hc => Bool.false_ne_true (h ▸ hc))]
  · intro h
    refine ⟨?_, fun p hp r hr => dfGroupby_key _ _ p hp r hr,
      fun r hr k hk => dfGroupby_complete _ _ r k hr hk⟩
    rw [_get_dicom_info_eq env directory tags gb num_workers dicom_info hinfo,
      if_pos h]

/-- Witness for C9: on the scenario catalog, grouping by a missing column
errors naming it, and grouping by `PatientID` partitions the rows. -/
theorem claim_C9_witness :
    _get_dicom_info scenarioEnv "root" ["PatientID"]
        (some (.single "Missing")) none =
      .error (.valueErrorGroupBy
        ((GroupBySpec.single "Missing").toColumnList.filter
          (fun col => !(pdDataFrame scenarioRows).columns.contains col))
        (pdDataFrame scenarioRows).columns) ∧
    _get_dicom_info scenarioEnv "root" ["PatientID"]
        (some (.single "PatientID")) none =
      .ok (.grouped (pdDataFrame scenarioRows)
        (dfGroupby ["PatientID"] (pdDataFrame scenarioRows))) := by
  constructor
  · exact (claim_C9 scenarioEnv "root" ["PatientID"] (.single "Missing") none
      scenarioRows (by decide)).1 (by decide)
  · exact ((claim_C9 scenarioEnv "root" ["PatientID"] (.single "PatientID") none
      scenarioRows (by decide)).2 (by decide)).1

/-- C10: `DicomManager.filter` gives the same outcome whatever the value of
`inplace`; a non-callable `filter_func` raises `ValueError` with no state
change; on a loaded catalog the stored frame is replaced by the filtered
(and, when `group_by` is set, re-grouped) frame; and after any successful
`filter` the new manager's `df_dicom` returns exactly the stored filtered
result. -/
theorem claim_C10 (env : DicomEnv) (m : DicomManager)
    (filter_func : Option (DfRow → Bool)) (inplace inplace' : Bool) :
    (DicomManager.filter env m filter_func inplace =
      DicomManager.filter env m filter_func inplace') ∧
    (DicomManager.filter env m none inplace = .error .valueErrorFilterFunc) ∧
    (∀ (f : DfRow → Bool) (d : DfState), m.df = some d → m.group_by = none →
      DicomManager.filter env m (some f) inplace =
        .ok ({m with df := some (.flat (filteredOf d f))},
          .flat (filteredOf d f))) ∧
    (∀ (f : DfRow → Bool) (d : DfState) (gb : GroupBySpec), m.df = some d →
      m.group_by = some gb →
      gb.toColumnList.all
        (fun c => (filteredOf d f).columns.contains c) = true →
      DicomManager.filter env m (some f) inplace =
        .ok ({m with df := some (.grouped (filteredOf d f)
              (dfGroupby gb.toColumnList (filteredOf d f)))},
          .grouped (filteredOf d f)
            (dfGroupby gb.toColumnList (filteredOf d f)))) ∧
    (∀ (m' : DicomManager) (st : DfState),
      DicomManager.filter env m filter_func inplace = .ok (m', st) →
      m'.df = some st ∧ df_dicom env m' = .ok (m', st)) := by
  refine ⟨rfl, rfl, ?_, ?_, ?_⟩
  · intro f d hd hgb
    unfold DicomManager.filter df_dicom
    rw [hd]
    simp [hgb]
  · intro f d gb hd hgb hall
    unfold DicomManager.filter df_dicom
    rw [hd]
    simp [hgb, hall]
    intro x hx
    exact mem_iff_contains.mp (List.all_eq_true.mp hall x hx)
  · intro m' st h
    cases filter_func with
    | none => exact Except.noConfusion h
    | some f =>
      simp only [DicomManager.filter] at h
      split at h
      · exact Except.noConfusion h
      · rename_i m1 d heq
        split at h
        · rw [Except.ok.injEq, Prod.mk.injEq] at h
          obtain ⟨rfl, rfl⟩ := h
          exact ⟨rfl, rfl⟩
        · split at h
          · rw [Except.ok.injEq, Prod.mk.injEq] at h
            obtain ⟨rfl, rfl⟩ := h
            exact ⟨rfl, rfl⟩
          · exact Except.noConfusion h

/-- Witness for C10 on a preloaded manager: same result for both `inplace`
values, `ValueError` for a non-callable filter, and the stored catalog is
replaced by the filtered regrouped frame. -/
theorem claim_C10_witness :
    DicomManager.filter emptyEnv witnessManager (some witnessFilter) false =
      DicomManager.filter emptyEnv witnessManager (some witnessFilter) true ∧
    DicomManager.filter emptyEnv witnessManager none false =
      .error .valueErrorFilterFunc ∧
    DicomManager.filter emptyEnv witnessManager (some witnessFilter) false =
      .ok ({witnessManager with df := some (.grouped
            (filteredOf (.flat witnessDf) witnessFilter)
            (dfGroupby ["PatientID"] (filteredOf (.flat witnessDf) witnessFilter)))},
        .grouped (filteredOf (.flat witnessDf) witnessFilter)
          (dfGroupby ["PatientID"] (filteredOf (.flat witnessDf) witnessFilter))) := by
  have h := claim_C10 emptyEnv witnessManager (some witnessFilter) false true
  exact ⟨h.1, (claim_C10 emptyEnv witnessManager none false true).2.1,
    h.2.2.2.1 witnessFilter (.flat witnessDf) (.single "PatientID") rfl rfl
      (by decide)⟩

end DicomOrganizer
